import Mathlib

/-!
Verification of the rust-tdsr terminal screen reader core.

This file shallowly embeds the screen buffer (src/terminal/screen.rs), the
cell model (src/terminal/cell.rs), the VTE performer (src/terminal/performer.rs),
the speech buffer (src/speech/buffer.rs), the default key handler and keymap
(src/input/default_handler.rs, src/input/keymap.rs), the review-cursor
navigation and scheduler (src/state/mod.rs), and the per-chunk speech gating
of handle_pty_output (src/main.rs), and proves or refutes the frozen claims
about them.

Conventions: u16 and usize values are modelled as Nat; the i16 scroll_offset
is modelled as Int with explicit saturation at the i16 bounds; Vec indexing
guarded by bounds checks in the source is modelled with List.get? / List.set
(List.set out of range is the identity, matching the guarded writes).
Tuples (cols, rows) and (x, y) keep the source's component order.
-/

/-- A single character cell (src/terminal/cell.rs). -/
structure Cell where
  data : Char
  is_wide_continuation : Bool
deriving DecidableEq, Repr

/-- `Cell::new()`: a blank space cell. -/
def Cell.new : Cell := { data := ' ', is_wide_continuation := false }

/-- `Cell::wide_continuation()`: NUL-sentinel continuation cell. -/
def Cell.wide_continuation : Cell := { data := Char.ofNat 0, is_wide_continuation := true }

/-- `Cell::clear()` resets a cell to a blank space; the result equals `Cell::new()`. -/
def Cell.clearCell (_ : Cell) : Cell := Cell.new

/-- Modelled from the spec: the display width of a character (1 or 2) as
computed by the external unicode-width crate (`c.width().unwrap_or(1)`),
which is a dependency, not part of this repository's sources. Wide (2-cell)
characters are the major East Asian wide/fullwidth ranges; everything else,
including all ASCII, has width 1. -/
def charWidth (c : Char) : Nat :=
  let n := c.toNat
  if (0x1100 ≤ n ∧ n ≤ 0x115F) ∨ (0x2E80 ≤ n ∧ n ≤ 0x303E) ∨
     (0x3041 ≤ n ∧ n ≤ 0x33FF) ∨ (0x3400 ≤ n ∧ n ≤ 0x4DBF) ∨
     (0x4E00 ≤ n ∧ n ≤ 0x9FFF) ∨ (0xAC00 ≤ n ∧ n ≤ 0xD7A3) ∨
     (0xF900 ≤ n ∧ n ≤ 0xFAFF) ∨ (0xFF00 ≤ n ∧ n ≤ 0xFF60) ∨
     (0xFFE0 ≤ n ∧ n ≤ 0xFFE6) then 2 else 1

/-- Speech buffer (src/speech/buffer.rs). -/
structure SpeechBuffer where
  buffer : String
  pending_lines : List String
deriving DecidableEq, Repr

/-- `SpeechBuffer::new()`. -/
def SpeechBuffer.new : SpeechBuffer := { buffer := "", pending_lines := [] }

/-- `SpeechBuffer::write(text)`. -/
def SpeechBuffer.write (sb : SpeechBuffer) (text : String) : SpeechBuffer :=
  { sb with buffer := sb.buffer ++ text }

/-- `SpeechBuffer::line_break()`. -/
def SpeechBuffer.line_break (sb : SpeechBuffer) : SpeechBuffer :=
  if sb.buffer = "" then sb
  else { buffer := "", pending_lines := sb.pending_lines ++ [sb.buffer] }

/-- `SpeechBuffer::flush()`: returns the contents and the cleared buffer. -/
def SpeechBuffer.flush (sb : SpeechBuffer) : String × SpeechBuffer :=
  (sb.buffer, { sb with buffer := "" })

/-- `SpeechBuffer::pop()`: removes the last character (state part). -/
def SpeechBuffer.pop (sb : SpeechBuffer) : SpeechBuffer :=
  { sb with buffer := sb.buffer.dropRight 1 }

/-- i16 saturating addition (`i16::saturating_add` / `saturating_sub`). -/
def i16SatAdd (a b : Int) : Int := max (-32768) (min 32767 (a + b))

/-- `Vec::swap(i, j)`, total: out-of-range indices leave the list unchanged
(every use in the source is bounds-guarded). -/
def listSwap {α : Type} (l : List α) (i j : Nat) : List α :=
  match l.get? i, l.get? j with
  | some a, some b => (l.set i b).set j a
  | _, _ => l

/-- A row of `cols` blank cells (`vec![Cell::new(); cols]`). -/
def blankRow (cols : Nat) : List Cell := List.replicate cols Cell.new

/-- The row-shifting loops of scroll/insert/delete lines: for each index `y`
in order, swap rows `y` and `y+1` when `y + 1` is in bounds (the source's
`if y + 1 < self.buffer.len() { self.buffer.swap(y, y + 1) }`). -/
def shiftRowsFold (idxs : List Nat) (l : List (List Cell)) : List (List Cell) :=
  idxs.foldl (fun b y => if y + 1 < b.length then listSwap b y (y + 1) else b) l

/-- The cell-shifting loops of insert/delete chars: for each index `i` in
order, swap cells `i` and `i+1` (`row.swap(i, i + 1)`). -/
def shiftCellsFold (idxs : List Nat) (row : List Cell) : List Cell :=
  idxs.foldl (fun r i => listSwap r i (i + 1)) row

/-- Terminal screen buffer (src/terminal/screen.rs). `size` is (cols, rows),
`cursor` is (x, y). -/
structure Screen where
  buffer : List (List Cell)
  cursor : Nat × Nat
  size : Nat × Nat
  scroll_region : Option (Nat × Nat)
  saved_cursor : Option (Nat × Nat)
  saved_buffer : Option (List (List Cell))
  scroll_offset : Int
deriving DecidableEq, Repr

/-- `Screen::new(cols, rows)`. -/
def Screen.new (cols rows : Nat) : Screen :=
  { buffer := List.replicate rows (blankRow cols)
    cursor := (0, 0)
    size := (cols, rows)
    scroll_region := none
    saved_cursor := none
    saved_buffer := none
    scroll_offset := 0 }

/-- `Screen::take_scroll_offset()`: returns the offset and resets it. -/
def Screen.take_scroll_offset (s : Screen) : Int × Screen :=
  (s.scroll_offset, { s with scroll_offset := 0 })

/-- `Screen::get_char(x, y)`. -/
def Screen.get_char (s : Screen) (x y : Nat) : Option Char :=
  (s.buffer.get? y).bind (fun row => (row.get? x).map (fun cell => cell.data))

/-- `Screen::resize(cols, rows)`: preserve the overlap, clamp the cursor. -/
def Screen.resize (s : Screen) (cols rows : Nat) : Screen :=
  let copy_rows := min rows s.buffer.length
  let new_buffer := (List.range rows).map (fun y =>
    if y < copy_rows then
      let old := (s.buffer.get? y).getD []
      let copy_cols := min cols old.length
      old.take copy_cols ++ List.replicate (cols - copy_cols) Cell.new
    else blankRow cols)
  { s with
    buffer := new_buffer
    size := (cols, rows)
    cursor := (min s.cursor.1 (cols - 1), min s.cursor.2 (rows - 1)) }

/-- `Screen::clear()`. -/
def Screen.clear (s : Screen) : Screen :=
  { s with buffer := s.buffer.map (fun row => row.map Cell.clearCell) }

/-- Clear the cells of a row from index `x` on (`iter_mut().skip(x)`). -/
def clearRowFrom (x : Nat) (row : List Cell) : List Cell :=
  row.take x ++ (row.drop x).map Cell.clearCell

/-- Clear the first `x1` cells of a row (`iter_mut().take(x1)`). -/
def clearRowTo (x1 : Nat) (row : List Cell) : List Cell :=
  (row.take x1).map Cell.clearCell ++ row.drop x1

/-- `Screen::clear_to_end()`. -/
def Screen.clear_to_end (s : Screen) : Screen :=
  let x := s.cursor.1
  let y := s.cursor.2
  let buf :=
    match s.buffer.get? y with
    | some row => s.buffer.set y (clearRowFrom x row)
    | none => s.buffer
  let buf := buf.take (y + 1) ++ (buf.drop (y + 1)).map (fun row => row.map Cell.clearCell)
  { s with buffer := buf }

/-- `Screen::clear_to_start()`. -/
def Screen.clear_to_start (s : Screen) : Screen :=
  let x := s.cursor.1
  let y := s.cursor.2
  let buf := (s.buffer.take y).map (fun row => row.map Cell.clearCell) ++ s.buffer.drop y
  let buf :=
    match buf.get? y with
    | some row => buf.set y (clearRowTo (x + 1) row)
    | none => buf
  { s with buffer := buf }

/-- One pass of the scroll_up loop body: shift rows `top..bottom` up by one
by adjacent swaps, blank the bottom row, bump the scroll offset. -/
def Screen.scrollUpStep (top bottom : Nat) (s : Screen) : Screen :=
  let buf := shiftRowsFold (List.range' top (bottom - top)) s.buffer
  let buf := if bottom < buf.length then buf.set bottom (blankRow s.size.1) else buf
  { s with buffer := buf, scroll_offset := i16SatAdd s.scroll_offset 1 }

/-- The `for _ in 0..lines` loop of `Screen::scroll_up`. -/
def Screen.scrollUpIter (top bottom : Nat) : Nat → Screen → Screen
  | 0, s => s
  | n + 1, s => Screen.scrollUpIter top bottom n (Screen.scrollUpStep top bottom s)

/-- `Screen::scroll_up(lines)`. -/
def Screen.scroll_up (s : Screen) (lines : Nat) : Screen :=
  let tb := s.scroll_region.getD (0, s.size.2 - 1)
  if tb.1 ≥ s.buffer.length ∨ tb.2 ≥ s.buffer.length ∨ tb.1 > tb.2 then s
  else Screen.scrollUpIter tb.1 tb.2 lines s

/-- One pass of the scroll_down loop body: shift rows down by adjacent swaps
in reverse order, blank the top row, decrement the scroll offset. -/
def Screen.scrollDownStep (top bottom : Nat) (s : Screen) : Screen :=
  let buf := shiftRowsFold ((List.range' top (bottom - top)).reverse) s.buffer
  let buf := if top < buf.length then buf.set top (blankRow s.size.1) else buf
  { s with buffer := buf, scroll_offset := i16SatAdd s.scroll_offset (-1) }

/-- The `for _ in 0..lines` loop of `Screen::scroll_down`. -/
def Screen.scrollDownIter (top bottom : Nat) : Nat → Screen → Screen
  | 0, s => s
  | n + 1, s => Screen.scrollDownIter top bottom n (Screen.scrollDownStep top bottom s)

/-- `Screen::scroll_down(lines)`. -/
def Screen.scroll_down (s : Screen) (lines : Nat) : Screen :=
  let tb := s.scroll_region.getD (0, s.size.2 - 1)
  if tb.1 ≥ s.buffer.length ∨ tb.2 ≥ s.buffer.length ∨ tb.1 > tb.2 then s
  else Screen.scrollDownIter tb.1 tb.2 lines s

/-- One pass of the insert_lines loop body. -/
def Screen.insertLinesStep (y bottom : Nat) (s : Screen) : Screen :=
  let buf := shiftRowsFold ((List.range' y (bottom - y)).reverse) s.buffer
  let buf := if y < buf.length then buf.set y (blankRow s.size.1) else buf
  { s with buffer := buf }

/-- The `for _ in 0..n` loop of `Screen::insert_lines`. -/
def Screen.insertLinesIter (y bottom : Nat) : Nat → Screen → Screen
  | 0, s => s
  | n + 1, s => Screen.insertLinesIter y bottom n (Screen.insertLinesStep y bottom s)

/-- `Screen::insert_lines(n)`. -/
def Screen.insert_lines (s : Screen) (n : Nat) : Screen :=
  let y := s.cursor.2
  let bottom := (s.scroll_region.getD (0, s.size.2 - 1)).2
  if y > bottom then s
  else Screen.insertLinesIter y bottom n s

/-- One pass of the delete_lines loop body. -/
def Screen.deleteLinesStep (y bottom : Nat) (s : Screen) : Screen :=
  let buf := shiftRowsFold (List.range' y (bottom - y)) s.buffer
  let buf := if bottom < buf.length then buf.set bottom (blankRow s.size.1) else buf
  { s with buffer := buf }

/-- The `for _ in 0..n` loop of `Screen::delete_lines`. -/
def Screen.deleteLinesIter (y bottom : Nat) : Nat → Screen → Screen
  | 0, s => s
  | n + 1, s => Screen.deleteLinesIter y bottom n (Screen.deleteLinesStep y bottom s)

/-- `Screen::delete_lines(n)`. -/
def Screen.delete_lines (s : Screen) (n : Nat) : Screen :=
  let y := s.cursor.2
  let bottom := (s.scroll_region.getD (0, s.size.2 - 1)).2
  if y > bottom then s
  else Screen.deleteLinesIter y bottom n s

/-- One pass of the insert_chars per-row loop body: shift cells right from
`x`, blank cell `x`. -/
def insertCharsRow (x cols : Nat) (row : List Cell) : List Cell :=
  if x < cols then
    (shiftCellsFold ((List.range' x (cols - 1 - x)).reverse) row).set x Cell.new
  else row

/-- n-fold application of a row transformation (`for _ in 0..n`). -/
def iterRow (f : List Cell → List Cell) : Nat → List Cell → List Cell
  | 0, row => row
  | n + 1, row => iterRow f n (f row)

/-- `Screen::insert_chars(n)`. -/
def Screen.insert_chars (s : Screen) (n : Nat) : Screen :=
  let x := s.cursor.1
  let y := s.cursor.2
  let cols := s.size.1
  match s.buffer.get? y with
  | some row => { s with buffer := s.buffer.set y (iterRow (insertCharsRow x cols) n row) }
  | none => s

/-- One pass of the delete_chars per-row loop body: shift cells left from
`x`, blank the last cell. -/
def deleteCharsRow (x cols : Nat) (row : List Cell) : List Cell :=
  if x < cols then
    let row := shiftCellsFold (List.range' x (cols - 1 - x)) row
    if cols > 0 then row.set (cols - 1) Cell.new else row
  else row

/-- `Screen::delete_chars(n)`. -/
def Screen.delete_chars (s : Screen) (n : Nat) : Screen :=
  let x := s.cursor.1
  let y := s.cursor.2
  let cols := s.size.1
  match s.buffer.get? y with
  | some row => { s with buffer := s.buffer.set y (iterRow (deleteCharsRow x cols) n row) }
  | none => s

/-- `Screen::set_scroll_region(top, bottom)`: 1-indexed inputs. -/
def Screen.set_scroll_region (s : Screen) (top bottom : Nat) : Screen :=
  let top := top - 1
  let bottom := min (bottom - 1) (s.size.2 - 1)
  { s with
    scroll_region := if top < bottom then some (top, bottom) else none
    cursor := (0, 0) }

/-- `Screen::save_screen()`. -/
def Screen.save_screen (s : Screen) : Screen :=
  { s with saved_cursor := some s.cursor, saved_buffer := some s.buffer }

/-- `Screen::restore_screen()` (uses `Option::take` semantics). -/
def Screen.restore_screen (s : Screen) : Screen :=
  let s :=
    match s.saved_buffer with
    | some buf => { s with buffer := buf, saved_buffer := none }
    | none => s
  match s.saved_cursor with
  | some c => { s with cursor := c, saved_cursor := none }
  | none => s

/-- Performer state (src/terminal/performer.rs `ScreenPerformer`): the screen,
the speech buffer, the last drawn position, and the line_pause flag. -/
structure PerfState where
  screen : Screen
  speech : SpeechBuffer
  last_drawn : Nat × Nat
  line_pause : Bool
deriving DecidableEq, Repr

/-- `ScreenPerformer::should_add_space`. -/
def PerfState.should_add_space (p : PerfState) : Bool :=
  decide (p.screen.cursor.2 = p.last_drawn.2 ∧ p.screen.cursor.1 > p.last_drawn.1 + 1)

/-- `ScreenPerformer::print(c)`: auto-wrap, bounds check, cell write,
wide-continuation marking, speech append, cursor advance. -/
def PerfState.print (p : PerfState) (c : Char) : PerfState :=
  let cols := p.screen.size.1
  let rows := p.screen.size.2
  let width := charWidth c
  let p :=
    if p.screen.cursor.1 ≥ cols then
      if p.screen.cursor.2 ≥ rows - 1 then
        { p with screen := ({ p.screen with cursor := (0, p.screen.cursor.2) }).scroll_up 1 }
      else
        { p with screen := { p.screen with cursor := (0, p.screen.cursor.2 + 1) } }
    else p
  let x := p.screen.cursor.1
  let y := p.screen.cursor.2
  if y ≥ rows ∨ x ≥ cols then p
  else
    let sp := if p.should_add_space then p.speech.write " " else p.speech
    let row0 := (p.screen.buffer.get? y).getD []
    let row1 := row0.set x { data := c, is_wide_continuation := false }
    let row2 := if width > 1 ∧ x + 1 < cols then row1.set (x + 1) Cell.wide_continuation else row1
    { p with
      screen := { p.screen with buffer := p.screen.buffer.set y row2, cursor := (x + width, y) }
      speech := sp.write c.toString
      last_drawn := (x, y) }

/-- `ScreenPerformer::execute(byte)`: LF, CR, TAB, BS. -/
def PerfState.execute (p : PerfState) (byte : Nat) : PerfState :=
  if byte = 10 then
    let p :=
      if p.line_pause then { p with speech := p.speech.line_break }
      else { p with speech := p.speech.write " " }
    let rows := p.screen.size.2
    if p.screen.cursor.2 ≥ rows - 1 then
      { p with screen := p.screen.scroll_up 1 }
    else
      { p with screen := { p.screen with cursor := (p.screen.cursor.1, p.screen.cursor.2 + 1) } }
  else if byte = 13 then
    { p with screen := { p.screen with cursor := (0, p.screen.cursor.2) } }
  else if byte = 9 then
    let p := { p with speech := p.speech.write " " }
    let x := (p.screen.cursor.1 / 8 + 1) * 8
    { p with screen := { p.screen with cursor := (min x (p.screen.size.1 - 1), p.screen.cursor.2) } }
  else if byte = 8 then
    if p.screen.cursor.1 > 0 then
      { p with
        screen := { p.screen with cursor := (p.screen.cursor.1 - 1, p.screen.cursor.2) }
        speech := p.speech.pop }
    else p
  else p

/-- `ScreenPerformer::esc_dispatch` with empty intermediates: DECSC (`7`),
DECRC (`8`), RI (`M`), IND (`D`), NEL (`E`). -/
def PerfState.esc_dispatch (p : PerfState) (byte : Nat) : PerfState :=
  if byte = 55 then
    { p with screen := { p.screen with saved_cursor := some p.screen.cursor } }
  else if byte = 56 then
    match p.screen.saved_cursor with
    | some saved => { p with screen := { p.screen with cursor := saved } }
    | none => p
  else if byte = 77 then
    let top := (p.screen.scroll_region.getD (0, p.screen.size.2 - 1)).1
    if p.screen.cursor.2 = top then { p with screen := p.screen.scroll_down 1 }
    else if p.screen.cursor.2 > 0 then
      { p with screen := { p.screen with cursor := (p.screen.cursor.1, p.screen.cursor.2 - 1) } }
    else p
  else if byte = 68 then
    let bottom := (p.screen.scroll_region.getD (0, p.screen.size.2 - 1)).2
    if p.screen.cursor.2 = bottom then { p with screen := p.screen.scroll_up 1 }
    else if p.screen.cursor.2 < p.screen.size.2 - 1 then
      { p with screen := { p.screen with cursor := (p.screen.cursor.1, p.screen.cursor.2 + 1) } }
    else p
  else if byte = 69 then
    let p := { p with screen := { p.screen with cursor := (0, p.screen.cursor.2) } }
    let bottom := (p.screen.scroll_region.getD (0, p.screen.size.2 - 1)).2
    if p.screen.cursor.2 = bottom then { p with screen := p.screen.scroll_up 1 }
    else if p.screen.cursor.2 < p.screen.size.2 - 1 then
      { p with screen := { p.screen with cursor := (p.screen.cursor.1, p.screen.cursor.2 + 1) } }
    else p
  else p

/-- Key actions (src/input/keymap.rs `KeyAction`). -/
inductive KeyAction where
  | PrevLine | CurrentLine | NextLine
  | PrevWord | CurrentWord | NextWord | SpellWord
  | PrevChar | CurrentChar | NextChar | SayCharPhonetic
  | TopOfScreen | BottomOfScreen | StartOfLine | EndOfLine
  | ArrowUp | ArrowDown | ArrowLeft | ArrowRight
  | Backspace | Delete
  | Config | QuietMode | SelectionStart | CopyMode | Silence
deriving DecidableEq, Repr

/-- Handler outcomes (src/input/handler.rs `HandlerAction`). -/
inductive HandlerAction where
  | Passthrough | Handled | Remove
deriving DecidableEq, Repr

/-- `create_default_keymap()` (src/input/keymap.rs): every binding, as raw
byte sequences, in insertion order. All keys are distinct, so association-list
lookup coincides with the HashMap's. -/
def create_default_keymap : List (List Nat × KeyAction) :=
  [ ([27, 117], .PrevLine)
  , ([27, 105], .CurrentLine)
  , ([27, 111], .NextLine)
  , ([27, 106], .PrevWord)
  , ([27, 107], .CurrentWord)
  , ([27, 108], .NextWord)
  , ([27, 109], .PrevChar)
  , ([27, 44], .CurrentChar)
  , ([27, 46], .NextChar)
  , ([27, 85], .TopOfScreen)
  , ([27, 79], .BottomOfScreen)
  , ([27, 77], .StartOfLine)
  , ([27, 62], .EndOfLine)
  , ([27, 58], .EndOfLine)
  , ([27, 91, 65], .ArrowUp)
  , ([27, 91, 66], .ArrowDown)
  , ([27, 91, 67], .ArrowRight)
  , ([27, 91, 68], .ArrowLeft)
  , ([27, 79, 65], .ArrowUp)
  , ([27, 79, 66], .ArrowDown)
  , ([27, 79, 67], .ArrowRight)
  , ([27, 79, 68], .ArrowLeft)
  , ([8], .Backspace)
  , ([127], .Backspace)
  , ([27, 91, 51, 126], .Delete)
  , ([27, 99], .Config)
  , ([27, 113], .QuietMode)
  , ([27, 114], .SelectionStart)
  , ([27, 118], .CopyMode)
  , ([27, 120], .Silence)
  , ([27, 107, 27, 107], .SpellWord)
  , ([27, 44, 27, 44], .SayCharPhonetic)
  ]

/-- Keymap lookup (`HashMap::get`). -/
def lookupKey (km : List (List Nat × KeyAction)) (k : List Nat) : Option KeyAction :=
  match km with
  | [] => none
  | (k', a) :: rest => if k' = k then some a else lookupKey rest k

/-- The `HandlerAction` returned by `DefaultKeyHandler::execute_action` for
each action. Speech, navigation and mode-stack side effects live on other
state; the returned action is what this models. Every arm of the source match
returns `Ok(Handled)` except the four arrow keys, Backspace and Delete, which
return `Ok(Passthrough)`. -/
def execute_action_result (a : KeyAction) : HandlerAction :=
  match a with
  | .Config => .Handled
  | .QuietMode => .Handled
  | .CopyMode => .Handled
  | .SelectionStart => .Handled
  | .Silence => .Handled
  | .PrevLine => .Handled
  | .CurrentLine => .Handled
  | .NextLine => .Handled
  | .PrevWord => .Handled
  | .CurrentWord => .Handled
  | .SpellWord => .Handled
  | .NextWord => .Handled
  | .PrevChar => .Handled
  | .CurrentChar => .Handled
  | .SayCharPhonetic => .Handled
  | .NextChar => .Handled
  | .TopOfScreen => .Handled
  | .BottomOfScreen => .Handled
  | .StartOfLine => .Handled
  | .EndOfLine => .Handled
  | .ArrowUp => .Passthrough
  | .ArrowDown => .Passthrough
  | .ArrowLeft => .Passthrough
  | .ArrowRight => .Passthrough
  | .Backspace => .Passthrough
  | .Delete => .Passthrough

/-- `DefaultKeyHandler::process_key`, projected to the returned action.
`isRepeat` is `self.is_repeat(key)` (double-tap within 500 ms), `hasPlugin`
is `state.has_plugin` on the UTF-8 decoded key. -/
def process_key_result (isRepeat : Bool) (hasPlugin : List Nat → Bool) (k : List Nat) :
    HandlerAction :=
  let doubled :=
    if isRepeat then lookupKey create_default_keymap (k ++ k) else none
  match doubled with
  | some a => execute_action_result a
  | none =>
    match lookupKey create_default_keymap k with
    | some a => execute_action_result a
    | none => if hasPlugin k then .Handled else .Passthrough

/-- Commands sent to the speech synthesizer sink. -/
inductive SynthEvent where
  | speakText (t : String)
  | letterText (t : String)
deriving DecidableEq, Repr

/-- Symbol-table lookup (`config.symbols.get(&code)`). -/
def lookupSymbol (symbols : List (Nat × String)) (code : Nat) : Option String :=
  match symbols with
  | [] => none
  | (c, n) :: rest => if c = code then some n else lookupSymbol rest code

/-- `State::process_symbols_in_text`: when enabled, every character with a
symbol name is replaced by the name surrounded by single spaces (the compiled
regex matches exactly the mapped characters, one at a time). -/
def process_symbols_in_text (processSymbols : Bool) (symbols : List (Nat × String))
    (text : String) : String :=
  if processSymbols then
    String.join (text.toList.map (fun ch =>
      match lookupSymbol symbols ch.toNat with
      | some name => " " ++ name ++ " "
      | none => ch.toString))
  else text

/-- `State::speak(text)`: suppressed when quiet, else one speak-channel
utterance of the symbol-processed text. -/
def speakEvents (quiet processSymbols : Bool) (symbols : List (Nat × String))
    (text : String) : List SynthEvent :=
  if quiet then []
  else [SynthEvent.speakText (process_symbols_in_text processSymbols symbols text)]

/-- `State::speak_char(ch)`: suppressed when quiet; else the letter channel
speaks the character's symbol name if it has one, else the character itself. -/
def speak_char_events (quiet : Bool) (symbols : List (Nat × String)) (ch : Char) :
    List SynthEvent :=
  if quiet then []
  else
    match lookupSymbol symbols ch.toNat with
    | some name => [SynthEvent.letterText name]
    | none => [SynthEvent.letterText ch.toString]

/-- Result of one `handle_pty_output` chunk, projected to the speech side:
synth events in emission order, the speech buffer, and `last_key`. -/
structure PipelineResult where
  events : List SynthEvent
  speech : SpeechBuffer
  last_key : Option Char
deriving DecidableEq, Repr

/-- The tail of the non-quiet branch of `handle_pty_output` after the
key-echo check: clear `last_key`, speak pending lines when line_pause is on,
flush the remaining buffer as one utterance. -/
def pipelineTail (quiet line_pause processSymbols : Bool) (symbols : List (Nat × String))
    (parsed : SpeechBuffer) : PipelineResult :=
  let drainNow := line_pause && decide (parsed.pending_lines ≠ [])
  let lineEvents :=
    if drainNow then
      (parsed.pending_lines.map (fun l =>
        if l = "" then [] else speakEvents quiet processSymbols symbols l)).flatten
    else []
  let sb1 := if drainNow then { parsed with pending_lines := [] } else parsed
  if sb1.buffer ≠ "" then
    { events := lineEvents ++ speakEvents quiet processSymbols symbols sb1.buffer
      speech := { sb1 with buffer := "" }
      last_key := none }
  else
    { events := lineEvents, speech := sb1, last_key := none }

/-- `handle_pty_output` (src/main.rs), projected to the speech pipeline.
`output` is the chunk's bytes; `parsed` is the speech buffer after
`emulator.process_with_speech` has consumed the chunk (the screen-side effect
of that call is `PerfState.print`/`execute`/`esc_dispatch` above); `sb0` is
the speech buffer before the chunk, used by the quiet path, which feeds the
performer a dummy buffer and emits nothing. -/
def handle_pty_output_speech (quiet temp_silence key_echo line_pause processSymbols : Bool)
    (symbols : List (Nat × String)) (last_key : Option Char)
    (output : List Nat) (parsed sb0 : SpeechBuffer) : PipelineResult :=
  if quiet ∨ temp_silence then
    { events := [], speech := sb0, last_key := last_key }
  else
    match last_key with
    | some typed_key =>
      if key_echo && decide (output = [typed_key.toNat]) then
        { events := speak_char_events quiet symbols typed_key
          speech := { parsed with buffer := "" }
          last_key := none }
      else pipelineTail quiet line_pause processSymbols symbols parsed
    | none => pipelineTail quiet line_pause processSymbols symbols parsed

/-- Scheduler state (src/state/mod.rs): `delayed_functions` as
(deadline, thunk-id) pairs — thunks are opaque one-shot closures, identified
here by an id — plus the `temp_silence` flag. -/
structure SchedulerState where
  delayed_functions : List (Nat × Nat)
  temp_silence : Bool
deriving DecidableEq, Repr

/-- The extraction loop of `State::run_scheduled`: scan forward, removing
each ready entry (deadline ≤ now) into `to_run`, keeping the rest; both
sub-sequences keep their original order. -/
def extractReady (now : Nat) : List (Nat × Nat) → List (Nat × Nat) × List (Nat × Nat)
  | [] => ([], [])
  | e :: rest =>
    let p := extractReady now rest
    if now ≥ e.1 then (e :: p.1, p.2) else (p.1, e :: p.2)

/-- `State::run_scheduled`: returns the post-extraction scheduler state (the
state in which the ready thunks then run, sequentially and in order — the
source clears `temp_silence` before the execution loop) and the ready
entries in execution order. -/
def run_scheduled (now : Nat) (st : SchedulerState) : SchedulerState × List (Nat × Nat) :=
  let p := extractReady now st.delayed_functions
  ({ delayed_functions := p.2
     temp_silence := if p.1.isEmpty then st.temp_silence else false }, p.1)

/-- `State::get_char`: the character under the review cursor, defaulting to a
space when the position is out of bounds. -/
def stateGetChar (screen : Screen) (x y : Nat) : Char :=
  (screen.get_char x y).getD ' '

/-- The character spoken by `State::say_char(y, x, _)`:
`screen.get_char(x, y).unwrap_or(' ')`. -/
def say_char_char (screen : Screen) (y x : Nat) : Char :=
  (screen.get_char x y).getD ' '

/-- `State::move_prevchar`. -/
def move_prevchar (screen : Screen) (pos : Nat × Nat) : Nat × Nat :=
  if pos.1 = 0 then
    if pos.2 = 0 then pos else (screen.size.1 - 1, pos.2 - 1)
  else (pos.1 - 1, pos.2)

/-- `State::move_nextchar`. -/
def move_nextchar (screen : Screen) (pos : Nat × Nat) : Nat × Nat :=
  if pos.1 = screen.size.1 - 1 then
    if pos.2 = screen.size.2 - 1 then pos else (0, pos.2 + 1)
  else (pos.1 + 1, pos.2)

/-- `State::skip_to_previous_char`: step left while the current cell holds
the NUL wide-continuation sentinel and x > 0. Structural recursion on x
mirrors the loop, which decrements x each pass. -/
def skip_to_previous_char (screen : Screen) (y : Nat) : Nat → Nat
  | 0 => 0
  | x + 1 =>
    if stateGetChar screen (x + 1) y = Char.ofNat 0 then skip_to_previous_char screen y x
    else x + 1

/-- `State::prev_line`, review-position part. -/
def prev_line (_screen : Screen) (pos : Nat × Nat) : Nat × Nat :=
  if pos.2 = 0 then pos else (pos.1, pos.2 - 1)

/-- `State::current_line`, review-position part (no movement). -/
def current_line (_screen : Screen) (pos : Nat × Nat) : Nat × Nat := pos

/-- `State::next_line`, review-position part. -/
def next_line (screen : Screen) (pos : Nat × Nat) : Nat × Nat :=
  if pos.2 ≥ screen.size.2 - 1 then pos else (pos.1, pos.2 + 1)

/-- `State::prev_char`, review-position part: step left once, then skip any
wide-continuation cells. -/
def prev_char (screen : Screen) (pos : Nat × Nat) : Nat × Nat :=
  if pos.1 = 0 then pos
  else (skip_to_previous_char screen pos.2 (pos.1 - 1), pos.2)

/-- `State::current_char`, review-position part (no movement). -/
def current_char (_screen : Screen) (pos : Nat × Nat) : Nat × Nat := pos

/-- `State::next_char`, review-position part: advance by the display width of
the current character; past the right edge, clamp to the last column and skip
continuation cells leftward. -/
def next_char (screen : Screen) (pos : Nat × Nat) : Nat × Nat :=
  let ch := stateGetChar screen pos.1 pos.2
  let x := pos.1 + charWidth ch
  if x > screen.size.1 - 1 then
    (skip_to_previous_char screen pos.2 (screen.size.1 - 1), pos.2)
  else (x, pos.2)

/-- The word-start loop of `State::get_word_at_cursor` and the third loop of
`prev_word`: step left while x > 0, the current cell is not a space and the
cell to the left is not a space. -/
def wordStartLoop (screen : Screen) (y : Nat) : Nat → Nat
  | 0 => 0
  | x + 1 =>
    if stateGetChar screen (x + 1) y ≠ ' ' ∧ screen.get_char x y ≠ some ' ' then
      wordStartLoop screen y x
    else x + 1

/-- The word-collection loop of `State::get_word_at_cursor`: while
x < cols − 1, step right; stop on a space, else append the character. Fuel
bounds the iteration count (x strictly increases toward cols − 1, so `cols`
fuel is enough). Returns the collected word and the final x. -/
def collectWord (screen : Screen) (y cols : Nat) : Nat → Nat → String → String × Nat
  | _, 0, acc => (acc, 0)
  | 0, x, acc => (acc, x)
  | fuel + 1, x, acc =>
    if x < cols - 1 then
      let x' := x + 1
      let ch := stateGetChar screen x' y
      if ch = ' ' then (acc, x')
      else collectWord screen y cols fuel x' (acc.push ch)
    else (acc, x)

/-- `State::get_word_at_cursor`: move to the word start, collect the word,
remember the original position. Returns (word, original position). -/
def get_word_at_cursor (screen : Screen) (pos : Nat × Nat) : String × (Nat × Nat) :=
  let orig := pos
  let xs := wordStartLoop screen pos.2 pos.1
  if xs = 0 ∧ stateGetChar screen 0 pos.2 = ' ' then ("", orig)
  else
    let first := stateGetChar screen xs pos.2
    let wr := collectWord screen pos.2 screen.size.1 screen.size.1 xs (String.singleton first)
    (wr.1, orig)

/-- `State::say_word`, review-position part: the word is extracted and
spoken, then `self.review.pos = orig_pos` restores the entry position. -/
def say_word_pos (screen : Screen) (pos : Nat × Nat) : Nat × Nat :=
  (get_word_at_cursor screen pos).2

/-- The first loop of `State::prev_word`: step left while x > 0 and the
current cell is not a space. -/
def prevWordLoopA (screen : Screen) (y : Nat) : Nat → Nat
  | 0 => 0
  | x + 1 =>
    if stateGetChar screen (x + 1) y ≠ ' ' then prevWordLoopA screen y x
    else x + 1

/-- The second loop of `State::prev_word`: step left while x > 0 and the
current cell is a space. -/
def prevWordLoopB (screen : Screen) (y : Nat) : Nat → Nat
  | 0 => 0
  | x + 1 =>
    if stateGetChar screen (x + 1) y = ' ' then prevWordLoopB screen y x
    else x + 1

/-- `State::prev_word`, review-position part. -/
def prev_word (screen : Screen) (pos : Nat × Nat) : Nat × Nat :=
  if pos.1 = 0 then say_word_pos screen pos
  else
    let x1 := prevWordLoopA screen pos.2 pos.1
    let x2 := prevWordLoopB screen pos.2 x1
    let x3 := wordStartLoop screen pos.2 x2
    say_word_pos screen (x3, pos.2)

/-- The first loop of `State::next_word`: step right while x < cols − 1 and
the current cell is not a space (fueled, as for `collectWord`). -/
def nextWordLoopA (screen : Screen) (y cols : Nat) : Nat → Nat → Nat
  | 0, x => x
  | fuel + 1, x =>
    if x < cols - 1 ∧ stateGetChar screen x y ≠ ' ' then nextWordLoopA screen y cols fuel (x + 1)
    else x

/-- The second loop of `State::next_word`: step right while x < cols − 1 and
the current cell is a space (fueled). -/
def nextWordLoopB (screen : Screen) (y cols : Nat) : Nat → Nat → Nat
  | 0, x => x
  | fuel + 1, x =>
    if x < cols - 1 ∧ stateGetChar screen x y = ' ' then nextWordLoopB screen y cols fuel (x + 1)
    else x

/-- `State::next_word`, review-position part. -/
def next_word (screen : Screen) (pos : Nat × Nat) : Nat × Nat :=
  let cols := screen.size.1
  let orig := pos
  let x1 := nextWordLoopA screen pos.2 cols cols pos.1
  let x2 := nextWordLoopB screen pos.2 cols cols x1
  if x2 = cols - 1 ∧ stateGetChar screen x2 pos.2 = ' ' then say_word_pos screen orig
  else say_word_pos screen (x2, pos.2)

/-- `State::say_word` with the spell flag, position part: same restore. -/
def say_word_spell_pos (screen : Screen) (pos : Nat × Nat) : Nat × Nat :=
  say_word_pos screen pos

/-- `State::top_of_screen`, review-position part. -/
def top_of_screen (_screen : Screen) (pos : Nat × Nat) : Nat × Nat :=
  (pos.1, 0)

/-- `State::bottom_of_screen`, review-position part. -/
def bottom_of_screen (screen : Screen) (pos : Nat × Nat) : Nat × Nat :=
  (pos.1, screen.size.2 - 1)

/-- `State::start_of_line`, review-position part. -/
def start_of_line (_screen : Screen) (pos : Nat × Nat) : Nat × Nat :=
  (0, pos.2)

/-- `State::end_of_line`, review-position part. -/
def end_of_line (screen : Screen) (pos : Nat × Nat) : Nat × Nat :=
  (screen.size.1 - 1, pos.2)

/-- Feed the characters of a chunk of plain printable text to `print` in
order (what the vte parser does with printable bytes in the ground state). -/
def printChars (p : PerfState) (cs : List Char) : PerfState :=
  cs.foldl PerfState.print p

/-- A fresh 5-column by 3-row performer, line_pause off. -/
def c6Start : PerfState :=
  { screen := Screen.new 5 3
    speech := SpeechBuffer.new
    last_drawn := (0, 0)
    line_pause := false }

/-- The performer after printing the sixteen characters of the C6 scenario. -/
def c6Final : PerfState := printChars c6Start "ABCDEFGHIJKLMNOP".toList

/-- C6: on a fresh 5×3 screen, printing "ABCDEFGHIJKLMNOP" leaves row 0 =
"FGHIJ", row 1 = "KLMNO", row 2 = "P    ", the cursor at (1,2), and
`take_scroll_offset` returns +1 and resets the offset to zero. -/
theorem C6_scroll_on_overflow :
    c6Final.screen.buffer.map (fun row => row.map (fun cell => cell.data)) =
      [['F', 'G', 'H', 'I', 'J'],
       ['K', 'L', 'M', 'N', 'O'],
       ['P', ' ', ' ', ' ', ' ']] ∧
    c6Final.screen.cursor = (1, 2) ∧
    c6Final.screen.take_scroll_offset.1 = 1 ∧
    c6Final.screen.take_scroll_offset.2.scroll_offset = 0 := by
  decide

/-- A 5×3 screen with a scroll region (0,1) whose bottom row 1 is above the
last screen row 2, with the cursor at the region's bottom row. -/
def c1Perf : PerfState :=
  { screen := { Screen.new 5 3 with scroll_region := some (0, 1), cursor := (0, 1) }
    speech := SpeechBuffer.new
    last_drawn := (0, 0)
    line_pause := false }

/-- C1 counterexample: a line feed with the cursor at the bottom of a scroll
region that ends above the last screen row does NOT scroll — the grid and
scroll_offset are unchanged and the cursor row is incremented instead,
contradicting the claim that the scroll-region bottom decides scrolling. -/
theorem C1_counterexample :
    (c1Perf.execute 10).screen.cursor = (0, 2) ∧
    (c1Perf.execute 10).screen.scroll_offset = 0 ∧
    (c1Perf.execute 10).screen.buffer = c1Perf.screen.buffer := by
  decide

/-- C2 counterexample: the arrow-up byte sequence ESC [ A is bound in the
default keymap, yet processing it returns Passthrough, not Handled. -/
theorem C2_counterexample :
    lookupKey create_default_keymap [27, 91, 65] = some KeyAction.ArrowUp ∧
    process_key_result false (fun _ => false) [27, 91, 65] = HandlerAction.Passthrough := by
  decide

/-- A 2×2 screen with a single-line scroll region (0,0) and an `A` in the
region's row. -/
def c3Screen : Screen :=
  { Screen.new 2 2 with
    scroll_region := some (0, 0)
    buffer := [[{ data := 'A', is_wide_continuation := false }, Cell.new],
               [Cell.new, Cell.new]] }

/-- C3 counterexample: scroll_up(1) on a single-line scroll region is not a
no-op: it blanks the region's row and increments scroll_offset. -/
theorem C3_counterexample :
    (c3Screen.scroll_up 1).buffer = [[Cell.new, Cell.new], [Cell.new, Cell.new]] ∧
    (c3Screen.scroll_up 1).buffer ≠ c3Screen.buffer ∧
    (c3Screen.scroll_up 1).scroll_offset = 1 := by
  decide

/-- save_screen on a 2×2 screen, then resize to 3×3, then restore_screen. -/
def c4Screen : Screen := (((Screen.new 2 2).save_screen).resize 3 3).restore_screen

/-- C4 counterexample: after save_screen, resize, restore_screen — all listed
mutations — the grid shape invariant fails: the restored buffer still has the
pre-resize 2 rows while the current size says 3. -/
theorem C4_counterexample :
    ¬ (c4Screen.buffer.length = c4Screen.size.2 ∧
       ∀ row ∈ c4Screen.buffer, row.length = c4Screen.size.1) := by
  decide

/-- A 3×3 performer whose screen was saved (by save_screen) with the cursor
at (1,0); then a CR moves the cursor to (0,0) and ESC 7 saves the cursor. -/
def c5Perf : PerfState :=
  ({ screen := ({ Screen.new 3 3 with cursor := (1, 0) }).save_screen
     speech := SpeechBuffer.new
     last_drawn := (0, 0)
     line_pause := false } : PerfState).execute 13 |>.esc_dispatch 55

/-- C5 counterexample: an intermediate ESC 7 (processed by the Performer)
overwrites the cursor stored by save_screen, so restore_screen yields the
ESC-7 cursor (0,0) instead of the save-time cursor (1,0). -/
theorem C5_counterexample :
    (({ Screen.new 3 3 with cursor := (1, 0) }) : Screen).cursor = (1, 0) ∧
    (c5Perf.screen.restore_screen).cursor = (0, 0) := by
  decide

/-- C2 (amended): every key bound in the default keymap is processed to the
result of its action's dispatch — Handled for all actions except the four
arrow actions, Backspace and Delete, which yield Passthrough — and every
unbound key with no plugin yields Passthrough. (The claim as frozen said all
bound keys, including arrows, Backspace and Delete, yield Handled.) -/
theorem C2_amended :
    (∀ (k : List Nat) (a : KeyAction), lookupKey create_default_keymap k = some a →
      process_key_result false (fun _ => false) k =
        (if a = KeyAction.ArrowUp ∨ a = KeyAction.ArrowDown ∨ a = KeyAction.ArrowLeft ∨
            a = KeyAction.ArrowRight ∨ a = KeyAction.Backspace ∨ a = KeyAction.Delete
         then HandlerAction.Passthrough else HandlerAction.Handled)) ∧
    (∀ k : List Nat, lookupKey create_default_keymap k = none →
      process_key_result false (fun _ => false) k = HandlerAction.Passthrough) := by
  constructor
  · intro k a h
    simp only [process_key_result, if_false, h]
    cases a <;> rfl
  · intro k h
    simp [process_key_result, h]

/-- C2 witness: the bound key ESC u (PrevLine) is processed to Handled. -/
theorem C2_amended_witness :
    lookupKey create_default_keymap [27, 117] = some KeyAction.PrevLine ∧
    process_key_result false (fun _ => false) [27, 117] = HandlerAction.Handled := by
  refine ⟨by decide, ?_⟩
  have h := C2_amended.1 [27, 117] KeyAction.PrevLine (by decide)
  simpa using h

/-- C7: with speech enabled (quiet and temp_silence off), key_echo on, a
one-byte chunk equal to last_key: the character is spoken on the synth's
letter channel, the speech buffer's text is discarded (not flushed to the
speak channel), last_key is cleared, and no other event is emitted. -/
theorem C7_key_echo_short_circuit (line_pause processSymbols : Bool)
    (symbols : List (Nat × String)) (c : Char) (parsed sb0 : SpeechBuffer) :
    handle_pty_output_speech false false true line_pause processSymbols symbols (some c)
        [c.toNat] parsed sb0 =
      { events := speak_char_events false symbols c
        speech := { parsed with buffer := "" }
        last_key := none } ∧
    ∃ t, speak_char_events false symbols c = [SynthEvent.letterText t] := by
  constructor
  · simp [handle_pty_output_speech]
  · unfold speak_char_events
    cases h : lookupSymbol symbols c.toNat with
    | none => exact ⟨c.toString, by simp [h]⟩
    | some name => exact ⟨name, by simp [h]⟩

/-- The extraction loop of run_scheduled computes the stable partition of the
scheduled entries into ready (deadline ≤ now) and not yet ready. -/
theorem extractReady_eq (now : Nat) (l : List (Nat × Nat)) :
    extractReady now l =
      (l.filter (fun e => decide (e.1 ≤ now)), l.filter (fun e => decide (now < e.1))) := by
  induction l with
  | nil => rfl
  | cons e rest ih =>
    simp only [extractReady, ih, List.filter_cons]
    by_cases h : e.1 ≤ now
    · simp [h, Nat.not_lt.mpr h]
    · simp [h, Nat.lt_of_not_le h]

/-- C8: run_scheduled removes exactly the entries with deadline ≤ now,
returns them for sequential execution in their original insertion order,
leaves later entries scheduled unchanged (in order), and clears temp_silence
exactly when at least one entry is ready — before any thunk runs, since the
returned state is the one the thunks execute in. -/
theorem C8_run_scheduled (now : Nat) (st : SchedulerState) :
    (run_scheduled now st).2 = st.delayed_functions.filter (fun e => decide (e.1 ≤ now)) ∧
    (run_scheduled now st).1.delayed_functions =
      st.delayed_functions.filter (fun e => decide (now < e.1)) ∧
    (run_scheduled now st).1.temp_silence =
      (if st.delayed_functions.filter (fun e => decide (e.1 ≤ now)) = [] then st.temp_silence
       else false) := by
  unfold run_scheduled
  rw [extractReady_eq]
  refine ⟨rfl, rfl, ?_⟩
  by_cases h : st.delayed_functions.filter (fun e => decide (e.1 ≤ now)) = []
  · simp [h]
  · simp [h, List.isEmpty_iff]

/-- The scroll_offset accumulated by n scroll-up passes: n-fold saturating
increment. -/
def i16SatAddIterPos : Nat → Int → Int
  | 0, x => x
  | n + 1, x => i16SatAddIterPos n (i16SatAdd x 1)

/-- The scroll_offset accumulated by n scroll-down passes: n-fold saturating
decrement. -/
def i16SatAddIterNeg : Nat → Int → Int
  | 0, x => x
  | n + 1, x => i16SatAddIterNeg n (i16SatAdd x (-1))

/-- On a single-line region (top = bottom = t), each scroll-up pass swaps
nothing, blanks row t and bumps the offset; iterating keeps the single
blanked row. -/
theorem scrollUpIter_single (t n : Nat) (s : Screen) (ht : t < s.buffer.length) :
    Screen.scrollUpIter t t (n + 1) s =
      { s with buffer := s.buffer.set t (blankRow s.size.1)
               scroll_offset := i16SatAddIterPos (n + 1) s.scroll_offset } := by
  induction n generalizing s with
  | zero =>
    show Screen.scrollUpStep t t s = _
    simp [Screen.scrollUpStep, shiftRowsFold, ht, i16SatAddIterPos, i16SatAdd]
  | succ n ih =>
    have step : Screen.scrollUpStep t t s =
        { s with buffer := s.buffer.set t (blankRow s.size.1)
                 scroll_offset := i16SatAdd s.scroll_offset 1 } := by
      simp [Screen.scrollUpStep, shiftRowsFold, ht]
    have ht' : t < (Screen.scrollUpStep t t s).buffer.length := by
      rw [step]; simpa using ht
    calc Screen.scrollUpIter t t (n + 2) s
        = Screen.scrollUpIter t t (n + 1) (Screen.scrollUpStep t t s) := rfl
      _ = _ := by rw [ih _ ht', step]; simp [List.set_set, i16SatAddIterPos]

/-- The scroll-down analogue of `scrollUpIter_single`. -/
theorem scrollDownIter_single (t n : Nat) (s : Screen) (ht : t < s.buffer.length) :
    Screen.scrollDownIter t t (n + 1) s =
      { s with buffer := s.buffer.set t (blankRow s.size.1)
               scroll_offset := i16SatAddIterNeg (n + 1) s.scroll_offset } := by
  induction n generalizing s with
  | zero =>
    show Screen.scrollDownStep t t s = _
    simp [Screen.scrollDownStep, shiftRowsFold, ht, i16SatAddIterNeg, i16SatAdd]
  | succ n ih =>
    have step : Screen.scrollDownStep t t s =
        { s with buffer := s.buffer.set t (blankRow s.size.1)
                 scroll_offset := i16SatAdd s.scroll_offset (-1) } := by
      simp [Screen.scrollDownStep, shiftRowsFold, ht]
    have ht' : t < (Screen.scrollDownStep t t s).buffer.length := by
      rw [step]; simpa using ht
    calc Screen.scrollDownIter t t (n + 2) s
        = Screen.scrollDownIter t t (n + 1) (Screen.scrollDownStep t t s) := rfl
      _ = _ := by rw [ih _ ht', step]; simp [List.set_set, i16SatAddIterNeg]

/-- C3 (amended): scroll_up(0) and scroll_down(0) leave the screen unchanged;
but a scroll by n+1 on a single-line region (top = bottom = t, in bounds) is
NOT a no-op: it blanks the region's row and moves scroll_offset by ±(n+1)
with i16 saturation, leaving the cursor unchanged. (The claim as frozen said
single-line-region scrolls leave the grid and scroll_offset unchanged.) -/
theorem C3_amended :
    (∀ s : Screen, s.scroll_up 0 = s ∧ s.scroll_down 0 = s) ∧
    (∀ (s : Screen) (t n : Nat), s.scroll_region = some (t, t) → t < s.buffer.length →
      ((s.scroll_up (n + 1)).buffer = s.buffer.set t (blankRow s.size.1) ∧
       (s.scroll_up (n + 1)).cursor = s.cursor ∧
       (s.scroll_up (n + 1)).scroll_offset = i16SatAddIterPos (n + 1) s.scroll_offset) ∧
      ((s.scroll_down (n + 1)).buffer = s.buffer.set t (blankRow s.size.1) ∧
       (s.scroll_down (n + 1)).cursor = s.cursor ∧
       (s.scroll_down (n + 1)).scroll_offset = i16SatAddIterNeg (n + 1) s.scroll_offset)) := by
  constructor
  · intro s
    constructor
    · unfold Screen.scroll_up
      dsimp only
      split
      · rfl
      · rfl
    · unfold Screen.scroll_down
      dsimp only
      split
      · rfl
      · rfl
  · intro s t n hr ht
    have hup : s.scroll_up (n + 1) = Screen.scrollUpIter t t (n + 1) s := by
      unfold Screen.scroll_up
      rw [hr]
      dsimp only [Option.getD_some]
      rw [if_neg (by omega)]
    have hdown : s.scroll_down (n + 1) = Screen.scrollDownIter t t (n + 1) s := by
      unfold Screen.scroll_down
      rw [hr]
      dsimp only [Option.getD_some]
      rw [if_neg (by omega)]
    rw [hup, hdown, scrollUpIter_single t n s ht, scrollDownIter_single t n s ht]
    exact ⟨⟨rfl, rfl, rfl⟩, ⟨rfl, rfl, rfl⟩⟩

/-- C3 witness: the amended claim at the concrete single-line-region screen. -/
theorem C3_amended_witness :
    c3Screen.scroll_region = some (0, 0) ∧ 0 < c3Screen.buffer.length ∧
    (c3Screen.scroll_up 1).buffer = c3Screen.buffer.set 0 (blankRow c3Screen.size.1) ∧
    (c3Screen.scroll_up 1).scroll_offset = i16SatAddIterPos 1 c3Screen.scroll_offset := by
  refine ⟨by decide, by decide, ?_, ?_⟩
  · exact ((C3_amended.2 c3Screen 0 0 (by decide) (by decide)).1).1
  · exact ((C3_amended.2 c3Screen 0 0 (by decide) (by decide)).1).2.2

/-- C5 (amended): save_screen, then any mutation that leaves the saved-state
fields (saved_buffer, saved_cursor) untouched — in particular no intermediate
ESC 7, save_screen or restore_screen — then restore_screen restores the grid
and the cursor bit-for-bit. (The claim as frozen allowed intermediate ESC 7,
which overwrites the saved cursor.) -/
theorem C5_amended (s : Screen) (f : Screen → Screen)
    (hb : (f s.save_screen).saved_buffer = s.save_screen.saved_buffer)
    (hc : (f s.save_screen).saved_cursor = s.save_screen.saved_cursor) :
    ((f s.save_screen).restore_screen).buffer = s.buffer ∧
    ((f s.save_screen).restore_screen).cursor = s.cursor := by
  have hb' : (f s.save_screen).saved_buffer = some s.buffer := by
    rw [hb]; rfl
  have hc' : (f s.save_screen).saved_cursor = some s.cursor := by
    rw [hc]; rfl
  unfold Screen.restore_screen
  rw [hb']
  simp [hc']

/-- C5 witness: clear (which does not touch the saved fields) between
save_screen and restore_screen on a concrete screen. -/
theorem C5_amended_witness :
    ((Screen.clear ((Screen.new 2 2).save_screen)).restore_screen).buffer =
      (Screen.new 2 2).buffer ∧
    ((Screen.clear ((Screen.new 2 2).save_screen)).restore_screen).cursor =
      (Screen.new 2 2).cursor :=
  C5_amended (Screen.new 2 2) Screen.clear (by decide) (by decide)

/-- C10: under the grid shape invariant, get_char returns none exactly for
out-of-bounds coordinates and some data otherwise (it is total — the Lean
function cannot panic, and the bounds-checked Rust chain `get / and_then /
map` cannot either); the review read paths `State::get_char` and
`State::say_char` substitute a space exactly when get_char is none. -/
theorem C10_get_char_total (s : Screen) (x y : Nat)
    (hlen : s.buffer.length = s.size.2)
    (hrows : ∀ row ∈ s.buffer, row.length = s.size.1) :
    (s.get_char x y = none ↔ (s.size.2 ≤ y ∨ s.size.1 ≤ x)) ∧
    (s.get_char x y = none → stateGetChar s x y = ' ' ∧ say_char_char s y x = ' ') ∧
    (∀ c, s.get_char x y = some c → stateGetChar s x y = c ∧ say_char_char s y x = c) := by
  refine ⟨?_, ?_, ?_⟩
  · cases hy : s.buffer.get? y with
    | none =>
      have h1 : s.size.2 ≤ y := by
        have := List.get?_eq_none.mp hy
        omega
      have hnone : s.get_char x y = none := by
        unfold Screen.get_char
        rw [hy]
        rfl
      simp [hnone, h1]
    | some row =>
      have hyl : y < s.size.2 := by
        have hlt : y < s.buffer.length := by
          rcases Nat.lt_or_ge y s.buffer.length with h | h
          · exact h
          · rw [List.get?_eq_none.mpr h] at hy
            exact Option.noConfusion hy
        omega
      have hrl : row.length = s.size.1 := hrows row (List.get?_mem hy)
      cases hx : row.get? x with
      | none =>
        have h2 : s.size.1 ≤ x := by
          have := List.get?_eq_none.mp hx
          omega
        have hnone : s.get_char x y = none := by
          unfold Screen.get_char
          rw [hy]
          simp [hx]
          omega
        simp [hnone, h2]
      | some cell =>
        have h2 : x < s.size.1 := by
          have hlt : x < row.length := by
            rcases Nat.lt_or_ge x row.length with h | h
            · exact h
            · rw [List.get?_eq_none.mpr h] at hx
              exact Option.noConfusion hx
          omega
        have hsome : s.get_char x y = some cell.data := by
          unfold Screen.get_char
          rw [hy]
          simp only [Option.bind_eq_bind, Option.some_bind, hx]
          rfl
        rw [hsome]
        constructor
        · intro hc
          exact Option.noConfusion hc
        · intro hc
          exfalso
          rcases hc with hc | hc
          · omega
          · omega
  · intro h
    unfold stateGetChar say_char_char
    rw [h]
    exact ⟨rfl, rfl⟩
  · intro c h
    unfold stateGetChar say_char_char
    rw [h]
    exact ⟨rfl, rfl⟩

/-- C10 witness: the theorem applied to a concrete 2×2 screen at the
out-of-bounds column 5. -/
theorem C10_witness :
    ((Screen.new 2 2).get_char 5 0 = none ↔
      ((Screen.new 2 2).size.2 ≤ 0 ∨ (Screen.new 2 2).size.1 ≤ 5)) ∧
    ((Screen.new 2 2).get_char 5 0 = none →
      stateGetChar (Screen.new 2 2) 5 0 = ' ' ∧ say_char_char (Screen.new 2 2) 0 5 = ' ') ∧
    (∀ c, (Screen.new 2 2).get_char 5 0 = some c →
      stateGetChar (Screen.new 2 2) 5 0 = c ∧ say_char_char (Screen.new 2 2) 0 5 = c) :=
  C10_get_char_total (Screen.new 2 2) 5 0 (by decide) (by decide)

/-- Each scroll-up pass leaves the cursor unchanged. -/
theorem scrollUpIter_cursor (t b n : Nat) (s : Screen) :
    (Screen.scrollUpIter t b n s).cursor = s.cursor := by
  induction n generalizing s with
  | zero => rfl
  | succ n ih => exact (ih (Screen.scrollUpStep t b s)).trans rfl

/-- `scroll_up` never moves the cursor. -/
theorem scroll_up_cursor (s : Screen) (n : Nat) : (s.scroll_up n).cursor = s.cursor := by
  unfold Screen.scroll_up
  dsimp only
  split
  · rfl
  · exact scrollUpIter_cursor _ _ n s

/-- A scroll-up pass commutes with overwriting the cursor (it reads only the
buffer, size, region and offset). -/
theorem scrollUpStep_cursor_set (t b : Nat) (s : Screen) (z : Nat × Nat) :
    Screen.scrollUpStep t b { s with cursor := z } =
      { Screen.scrollUpStep t b s with cursor := z } := rfl

/-- The scroll-up loop commutes with overwriting the cursor. -/
theorem scrollUpIter_cursor_set (t b n : Nat) (s : Screen) (z : Nat × Nat) :
    Screen.scrollUpIter t b n { s with cursor := z } =
      { Screen.scrollUpIter t b n s with cursor := z } := by
  induction n generalizing s with
  | zero => rfl
  | succ n ih =>
    show Screen.scrollUpIter t b n (Screen.scrollUpStep t b { s with cursor := z }) = _
    rw [scrollUpStep_cursor_set, ih]
    rfl

/-- `scroll_up` commutes with overwriting the cursor. -/
theorem scroll_up_cursor_set (s : Screen) (z : Nat × Nat) (n : Nat) :
    ({ s with cursor := z } : Screen).scroll_up n = { s.scroll_up n with cursor := z } := by
  unfold Screen.scroll_up
  dsimp only
  split
  · rfl
  · exact scrollUpIter_cursor_set _ _ n s z

/-- C1 (amended): a line feed, and an auto-wrap triggered when
cursor.x ≥ cols, scroll the screen up by one iff the cursor row is at least
rows − 1 (the last screen row), regardless of any scroll region — otherwise
the cursor row is incremented. In particular a LF at the bottom of a scroll
region that ends above the last row does not scroll. (The claim as frozen
said the scroll-region bottom decides.) -/
theorem C1_amended (p : PerfState) (c : Char)
    (hy : p.screen.cursor.2 < p.screen.size.2) (hcols : 1 ≤ p.screen.size.1) :
    ((p.screen.size.2 - 1 ≤ p.screen.cursor.2 →
        (p.execute 10).screen = p.screen.scroll_up 1) ∧
     (p.screen.cursor.2 < p.screen.size.2 - 1 →
        (p.execute 10).screen =
          { p.screen with cursor := (p.screen.cursor.1, p.screen.cursor.2 + 1) })) ∧
    (p.screen.size.1 ≤ p.screen.cursor.1 →
      ((p.screen.size.2 - 1 ≤ p.screen.cursor.2 →
          (p.print c).screen.scroll_offset = (p.screen.scroll_up 1).scroll_offset ∧
          (p.print c).screen.cursor.2 = p.screen.cursor.2) ∧
       (p.screen.cursor.2 < p.screen.size.2 - 1 →
          (p.print c).screen.scroll_offset = p.screen.scroll_offset ∧
          (p.print c).screen.cursor.2 = p.screen.cursor.2 + 1))) := by
  have hexec : (p.execute 10).screen =
      if p.screen.size.2 - 1 ≤ p.screen.cursor.2 then p.screen.scroll_up 1
      else { p.screen with cursor := (p.screen.cursor.1, p.screen.cursor.2 + 1) } := by
    unfold PerfState.execute
    cases hl : p.line_pause <;> simp [hl, ge_iff_le] <;> split <;> rfl
  refine ⟨⟨?_, ?_⟩, ?_⟩
  · intro h
    rw [hexec, if_pos h]
  · intro h
    rw [hexec, if_neg (by omega)]
  · intro hwrap
    constructor
    · intro h
      have hp1 : (if p.screen.cursor.1 ≥ p.screen.size.1 then
          (if p.screen.cursor.2 ≥ p.screen.size.2 - 1 then
            { p with screen := ({ p.screen with cursor := (0, p.screen.cursor.2) }).scroll_up 1 }
          else
            { p with screen := { p.screen with cursor := (0, p.screen.cursor.2 + 1) } })
        else p) =
          { p with screen :=
              { p.screen.scroll_up 1 with cursor := (0, p.screen.cursor.2) } } := by
        rw [if_pos hwrap, if_pos h, scroll_up_cursor_set]
      unfold PerfState.print
      dsimp only
      rw [hp1]
      dsimp only
      rw [if_neg (by omega)]
      exact ⟨rfl, rfl⟩
    · intro h
      have hp1 : (if p.screen.cursor.1 ≥ p.screen.size.1 then
          (if p.screen.cursor.2 ≥ p.screen.size.2 - 1 then
            { p with screen := ({ p.screen with cursor := (0, p.screen.cursor.2) }).scroll_up 1 }
          else
            { p with screen := { p.screen with cursor := (0, p.screen.cursor.2 + 1) } })
        else p) =
          { p with screen := { p.screen with cursor := (0, p.screen.cursor.2 + 1) } } := by
        rw [if_pos hwrap, if_neg (by omega)]
      unfold PerfState.print
      dsimp only
      rw [hp1]
      dsimp only
      rw [if_neg (by omega)]
      exact ⟨rfl, rfl⟩

/-- C1 witness: the amended claim at the concrete region-bottom screen of the
counterexample (line-feed clauses) — the non-scroll branch applies. -/
theorem C1_amended_witness :
    c1Perf.screen.cursor.2 < c1Perf.screen.size.2 ∧ 1 ≤ c1Perf.screen.size.1 ∧
    (c1Perf.execute 10).screen =
      { c1Perf.screen with cursor := (c1Perf.screen.cursor.1, c1Perf.screen.cursor.2 + 1) } := by
  refine ⟨by decide, by decide, ?_⟩
  exact (C1_amended c1Perf 'A' (by decide) (by decide)).1.2 (by decide)

/-- The grid shape invariant of the spec: the buffer has exactly `rows` rows
and every row exactly `cols` cells. -/
def Screen.shapeInv (s : Screen) : Prop :=
  s.buffer.length = s.size.2 ∧ ∀ row ∈ s.buffer, row.length = s.size.1

/-- Swapping preserves length. -/
theorem length_listSwap {α : Type} (l : List α) (i j : Nat) :
    (listSwap l i j).length = l.length := by
  unfold listSwap
  cases l.get? i <;> cases l.get? j <;> simp

/-- Swapping introduces no new elements. -/
theorem mem_listSwap {α : Type} {l : List α} {i j : Nat} {r : α}
    (h : r ∈ listSwap l i j) : r ∈ l := by
  unfold listSwap at h
  cases hi : l.get? i with
  | none => rw [hi] at h; exact h
  | some a =>
    cases hj : l.get? j with
    | none => rw [hi, hj] at h; exact h
    | some b =>
      rw [hi, hj] at h
      rcases List.mem_or_eq_of_mem_set h with h1 | h1
      · rcases List.mem_or_eq_of_mem_set h1 with h2 | h2
        · exact h2
        · exact h2 ▸ List.get?_mem hj
      · exact h1 ▸ List.get?_mem hi

/-- The row-shifting fold preserves the number of rows. -/
theorem length_shiftRowsFold (idxs : List Nat) (l : List (List Cell)) :
    (shiftRowsFold idxs l).length = l.length := by
  induction idxs generalizing l with
  | nil => rfl
  | cons y rest ih =>
    show (shiftRowsFold rest _).length = _
    rw [ih]
    dsimp only
    split
    · exact length_listSwap l y (y + 1)
    · rfl

/-- The row-shifting fold introduces no new rows. -/
theorem mem_shiftRowsFold {idxs : List Nat} {l : List (List Cell)} {r : List Cell}
    (h : r ∈ shiftRowsFold idxs l) : r ∈ l := by
  induction idxs generalizing l with
  | nil => exact h
  | cons y rest ih =>
    have h1 : r ∈ (if y + 1 < l.length then listSwap l y (y + 1) else l) := ih h
    by_cases hb : y + 1 < l.length
    · rw [if_pos hb] at h1
      exact mem_listSwap h1
    · rw [if_neg hb] at h1
      exact h1

/-- The cell-shifting fold preserves row length. -/
theorem length_shiftCellsFold (idxs : List Nat) (row : List Cell) :
    (shiftCellsFold idxs row).length = row.length := by
  induction idxs generalizing row with
  | nil => rfl
  | cons i rest ih =>
    show (shiftCellsFold rest _).length = _
    rw [ih, length_listSwap]

/-- Setting a row of the invariant length keeps all rows at that length. -/
theorem rows_len_set {cols : Nat} {l : List (List Cell)} {i : Nat} {r : List Cell}
    (h : ∀ row ∈ l, row.length = cols) (hr : r.length = cols) :
    ∀ row ∈ l.set i r, row.length = cols := by
  intro row hrow
  rcases List.mem_or_eq_of_mem_set hrow with h1 | h1
  · exact h row h1
  · exact h1 ▸ hr

/-- The shift-then-blank buffer transformation of every scroll/insert/delete
lines pass preserves the shape of the buffer. -/
theorem shiftBlank_length (idxs : List Nat) (i cols : Nat) (l : List (List Cell)) :
    (let b0 := shiftRowsFold idxs l
     if i < b0.length then b0.set i (blankRow cols) else b0).length = l.length := by
  dsimp only
  split
  · rw [List.length_set, length_shiftRowsFold]
  · exact length_shiftRowsFold idxs l

/-- All rows keep the invariant length through shift-then-blank. -/
theorem shiftBlank_rows {idxs : List Nat} {i cols : Nat} {l : List (List Cell)}
    (h : ∀ row ∈ l, row.length = cols) :
    ∀ row ∈ (let b0 := shiftRowsFold idxs l
              if i < b0.length then b0.set i (blankRow cols) else b0),
      row.length = cols := by
  dsimp only
  split
  · exact rows_len_set (fun row hr => h row (mem_shiftRowsFold hr))
      (by simp [blankRow])
  · exact fun row hr => h row (mem_shiftRowsFold hr)

/-- One scroll-up pass preserves the shape invariant. -/
theorem shapeInv_scrollUpStep (t b : Nat) {s : Screen} (h : s.shapeInv) :
    (Screen.scrollUpStep t b s).shapeInv := by
  obtain ⟨h1, h2⟩ := h
  exact ⟨(shiftBlank_length _ b s.size.1 s.buffer).trans h1, shiftBlank_rows h2⟩

/-- One scroll-down pass preserves the shape invariant. -/
theorem shapeInv_scrollDownStep (t b : Nat) {s : Screen} (h : s.shapeInv) :
    (Screen.scrollDownStep t b s).shapeInv := by
  obtain ⟨h1, h2⟩ := h
  exact ⟨(shiftBlank_length _ t s.size.1 s.buffer).trans h1, shiftBlank_rows h2⟩

/-- One insert-lines pass preserves the shape invariant. -/
theorem shapeInv_insertLinesStep (y b : Nat) {s : Screen} (h : s.shapeInv) :
    (Screen.insertLinesStep y b s).shapeInv := by
  obtain ⟨h1, h2⟩ := h
  exact ⟨(shiftBlank_length _ y s.size.1 s.buffer).trans h1, shiftBlank_rows h2⟩

/-- One delete-lines pass preserves the shape invariant. -/
theorem shapeInv_deleteLinesStep (y b : Nat) {s : Screen} (h : s.shapeInv) :
    (Screen.deleteLinesStep y b s).shapeInv := by
  obtain ⟨h1, h2⟩ := h
  exact ⟨(shiftBlank_length _ b s.size.1 s.buffer).trans h1, shiftBlank_rows h2⟩

/-- The scroll-up loop preserves the shape invariant. -/
theorem shapeInv_scrollUpIter (t b n : Nat) {s : Screen} (h : s.shapeInv) :
    (Screen.scrollUpIter t b n s).shapeInv := by
  induction n generalizing s with
  | zero => exact h
  | succ n ih => exact ih (shapeInv_scrollUpStep t b h)

/-- The scroll-down loop preserves the shape invariant. -/
theorem shapeInv_scrollDownIter (t b n : Nat) {s : Screen} (h : s.shapeInv) :
    (Screen.scrollDownIter t b n s).shapeInv := by
  induction n generalizing s with
  | zero => exact h
  | succ n ih => exact ih (shapeInv_scrollDownStep t b h)

/-- The insert-lines loop preserves the shape invariant. -/
theorem shapeInv_insertLinesIter (y b n : Nat) {s : Screen} (h : s.shapeInv) :
    (Screen.insertLinesIter y b n s).shapeInv := by
  induction n generalizing s with
  | zero => exact h
  | succ n ih => exact ih (shapeInv_insertLinesStep y b h)

/-- The delete-lines loop preserves the shape invariant. -/
theorem shapeInv_deleteLinesIter (y b n : Nat) {s : Screen} (h : s.shapeInv) :
    (Screen.deleteLinesIter y b n s).shapeInv := by
  induction n generalizing s with
  | zero => exact h
  | succ n ih => exact ih (shapeInv_deleteLinesStep y b h)

/-- `insertCharsRow` preserves the row length. -/
theorem length_insertCharsRow (x cols : Nat) (row : List Cell) :
    (insertCharsRow x cols row).length = row.length := by
  unfold insertCharsRow
  split
  · rw [List.length_set, length_shiftCellsFold]
  · rfl

/-- `deleteCharsRow` preserves the row length. -/
theorem length_deleteCharsRow (x cols : Nat) (row : List Cell) :
    (deleteCharsRow x cols row).length = row.length := by
  unfold deleteCharsRow
  dsimp only
  split
  · split
    · rw [List.length_set, length_shiftCellsFold]
    · exact length_shiftCellsFold _ row
  · rfl

/-- Iterating a length-preserving row transformation preserves length. -/
theorem length_iterRow {f : List Cell → List Cell}
    (hf : ∀ r, (f r).length = r.length) (n : Nat) (row : List Cell) :
    (iterRow f n row).length = row.length := by
  induction n generalizing row with
  | zero => rfl
  | succ n ih => exact (ih (f row)).trans (hf row)

/-- `clearRowFrom` preserves the row length. -/
theorem length_clearRowFrom (x : Nat) (row : List Cell) :
    (clearRowFrom x row).length = row.length := by
  simp [clearRowFrom]
  omega

/-- `clearRowTo` preserves the row length. -/
theorem length_clearRowTo (x1 : Nat) (row : List Cell) :
    (clearRowTo x1 row).length = row.length := by
  simp [clearRowTo]
  omega

/-- Clearing every row from index `k` on preserves the buffer shape. -/
theorem takeClearDrop_shape {cols : Nat} {l : List (List Cell)} (k : Nat)
    (h : ∀ row ∈ l, row.length = cols) :
    (l.take k ++ (l.drop k).map (fun row => row.map Cell.clearCell)).length = l.length ∧
    ∀ row ∈ l.take k ++ (l.drop k).map (fun row => row.map Cell.clearCell),
      row.length = cols := by
  constructor
  · simp only [List.length_append, List.length_take, List.length_map, List.length_drop]
    omega
  · intro row hrow
    rcases List.mem_append.mp hrow with hr | hr
    · exact h row (List.mem_of_mem_take hr)
    · obtain ⟨r0, hr0, rfl⟩ := List.mem_map.mp hr
      rw [List.length_map]
      exact h r0 (List.mem_of_mem_drop hr0)

/-- Clearing every row before index `k` preserves the buffer shape. -/
theorem clearTakeDrop_shape {cols : Nat} {l : List (List Cell)} (k : Nat)
    (h : ∀ row ∈ l, row.length = cols) :
    ((l.take k).map (fun row => row.map Cell.clearCell) ++ l.drop k).length = l.length ∧
    ∀ row ∈ (l.take k).map (fun row => row.map Cell.clearCell) ++ l.drop k,
      row.length = cols := by
  constructor
  · simp only [List.length_append, List.length_take, List.length_map, List.length_drop]
    omega
  · intro row hrow
    rcases List.mem_append.mp hrow with hr | hr
    · obtain ⟨r0, hr0, rfl⟩ := List.mem_map.mp hr
      rw [List.length_map]
      exact h r0 (List.mem_of_mem_take hr0)
    · exact h row (List.mem_of_mem_drop hr)

/-- `clear` preserves the shape invariant. -/
theorem shapeInv_clear {s : Screen} (h : s.shapeInv) : s.clear.shapeInv := by
  obtain ⟨h1, h2⟩ := h
  constructor
  · simpa [Screen.clear] using h1
  · intro row hrow
    simp only [Screen.clear] at hrow
    obtain ⟨r0, hr0, rfl⟩ := List.mem_map.mp hrow
    rw [List.length_map]
    exact h2 r0 hr0

/-- `clear_to_end` preserves the shape invariant. -/
theorem shapeInv_clear_to_end {s : Screen} (h : s.shapeInv) : s.clear_to_end.shapeInv := by
  obtain ⟨h1, h2⟩ := h
  unfold Screen.clear_to_end
  dsimp only
  cases hy : s.buffer.get? s.cursor.2 with
  | none =>
    obtain ⟨hl, hr⟩ := takeClearDrop_shape (s.cursor.2 + 1) h2
    exact ⟨hl.trans h1, hr⟩
  | some row =>
    have h2' : ∀ r ∈ s.buffer.set s.cursor.2 (clearRowFrom s.cursor.1 row),
        r.length = s.size.1 :=
      rows_len_set h2 ((length_clearRowFrom _ row).trans (h2 row (List.get?_mem hy)))
    obtain ⟨hl, hr⟩ := takeClearDrop_shape (s.cursor.2 + 1) h2'
    refine ⟨hl.trans ?_, hr⟩
    rw [List.length_set]
    exact h1

/-- `clear_to_start` preserves the shape invariant. -/
theorem shapeInv_clear_to_start {s : Screen} (h : s.shapeInv) : s.clear_to_start.shapeInv := by
  obtain ⟨h1, h2⟩ := h
  unfold Screen.clear_to_start
  dsimp only
  obtain ⟨hl0, hr0⟩ := @clearTakeDrop_shape s.size.1 s.buffer s.cursor.2 h2
  cases hy : ((s.buffer.take s.cursor.2).map (fun row => row.map Cell.clearCell) ++
      s.buffer.drop s.cursor.2).get? s.cursor.2 with
  | none => exact ⟨hl0.trans h1, hr0⟩
  | some row =>
    refine ⟨?_, ?_⟩
    · rw [List.length_set]
      exact hl0.trans h1
    · exact rows_len_set hr0
        ((length_clearRowTo (s.cursor.1 + 1) row).trans (hr0 row (List.get?_mem hy)))

/-- `scroll_up` preserves the shape invariant. -/
theorem shapeInv_scroll_up {s : Screen} (h : s.shapeInv) (n : Nat) :
    (s.scroll_up n).shapeInv := by
  unfold Screen.scroll_up
  dsimp only
  split
  · exact h
  · exact shapeInv_scrollUpIter _ _ n h

/-- `scroll_down` preserves the shape invariant. -/
theorem shapeInv_scroll_down {s : Screen} (h : s.shapeInv) (n : Nat) :
    (s.scroll_down n).shapeInv := by
  unfold Screen.scroll_down
  dsimp only
  split
  · exact h
  · exact shapeInv_scrollDownIter _ _ n h

/-- `insert_lines` preserves the shape invariant. -/
theorem shapeInv_insert_lines {s : Screen} (h : s.shapeInv) (n : Nat) :
    (s.insert_lines n).shapeInv := by
  unfold Screen.insert_lines
  dsimp only
  split
  · exact h
  · exact shapeInv_insertLinesIter _ _ n h

/-- `delete_lines` preserves the shape invariant. -/
theorem shapeInv_delete_lines {s : Screen} (h : s.shapeInv) (n : Nat) :
    (s.delete_lines n).shapeInv := by
  unfold Screen.delete_lines
  dsimp only
  split
  · exact h
  · exact shapeInv_deleteLinesIter _ _ n h

/-- `insert_chars` preserves the shape invariant. -/
theorem shapeInv_insert_chars {s : Screen} (h : s.shapeInv) (n : Nat) :
    (s.insert_chars n).shapeInv := by
  obtain ⟨h1, h2⟩ := h
  unfold Screen.insert_chars
  dsimp only
  cases hy : s.buffer.get? s.cursor.2 with
  | none => exact ⟨h1, h2⟩
  | some row =>
    refine ⟨?_, ?_⟩
    · rw [List.length_set]
      exact h1
    · exact rows_len_set h2
        ((length_iterRow (length_insertCharsRow s.cursor.1 s.size.1) n row).trans
          (h2 row (List.get?_mem hy)))

/-- `delete_chars` preserves the shape invariant. -/
theorem shapeInv_delete_chars {s : Screen} (h : s.shapeInv) (n : Nat) :
    (s.delete_chars n).shapeInv := by
  obtain ⟨h1, h2⟩ := h
  unfold Screen.delete_chars
  dsimp only
  cases hy : s.buffer.get? s.cursor.2 with
  | none => exact ⟨h1, h2⟩
  | some row =>
    refine ⟨?_, ?_⟩
    · rw [List.length_set]
      exact h1
    · exact rows_len_set h2
        ((length_iterRow (length_deleteCharsRow s.cursor.1 s.size.1) n row).trans
          (h2 row (List.get?_mem hy)))

/-- `resize` establishes the shape invariant for the new dimensions. -/
theorem shapeInv_resize (s : Screen) (cols rows : Nat) :
    (s.resize cols rows).shapeInv := by
  unfold Screen.resize
  constructor
  · simp
  · intro row hrow
    simp only [List.mem_map, List.mem_range] at hrow
    obtain ⟨y, _, rfl⟩ := hrow
    dsimp only
    split
    · simp only [List.length_append, List.length_take, List.length_replicate]
      omega
    · simp [blankRow]

/-- `restore_screen` preserves the shape invariant provided the saved buffer,
when present, already has the current dimensions. -/
theorem shapeInv_restore_screen {s : Screen} (h : s.shapeInv)
    (hs : ∀ b, s.saved_buffer = some b →
      b.length = s.size.2 ∧ ∀ row ∈ b, row.length = s.size.1) :
    s.restore_screen.shapeInv := by
  unfold Screen.restore_screen
  cases hb : s.saved_buffer with
  | none =>
    dsimp only
    cases hc : s.saved_cursor with
    | none => exact h
    | some cur => exact ⟨h.1, h.2⟩
  | some b =>
    obtain ⟨hb1, hb2⟩ := hs b hb
    dsimp only
    cases hc : s.saved_cursor with
    | none => exact ⟨hb1, hb2⟩
    | some cur => exact ⟨hb1, hb2⟩

/-- C4 (amended): every listed Screen mutation preserves the grid shape
invariant, and `resize` establishes it for the new dimensions — with the one
exception the counterexample forces: `restore_screen` preserves it only when
the saved buffer (if any) already has the current dimensions, i.e. when no
resize changed the size between `save_screen` and `restore_screen`. -/
theorem C4_amended (s : Screen) (h : s.shapeInv) :
    s.clear.shapeInv ∧ s.clear_to_end.shapeInv ∧ s.clear_to_start.shapeInv ∧
    (∀ n, (s.scroll_up n).shapeInv) ∧ (∀ n, (s.scroll_down n).shapeInv) ∧
    (∀ n, (s.insert_lines n).shapeInv) ∧ (∀ n, (s.delete_lines n).shapeInv) ∧
    (∀ n, (s.insert_chars n).shapeInv) ∧ (∀ n, (s.delete_chars n).shapeInv) ∧
    (∀ t b, (s.set_scroll_region t b).shapeInv) ∧
    s.save_screen.shapeInv ∧
    (∀ cols rows, (s.resize cols rows).shapeInv) ∧
    ((∀ b, s.saved_buffer = some b →
        b.length = s.size.2 ∧ ∀ row ∈ b, row.length = s.size.1) →
      s.restore_screen.shapeInv) :=
  ⟨shapeInv_clear h, shapeInv_clear_to_end h, shapeInv_clear_to_start h,
   shapeInv_scroll_up h, shapeInv_scroll_down h,
   shapeInv_insert_lines h, shapeInv_delete_lines h,
   shapeInv_insert_chars h, shapeInv_delete_chars h,
   fun _ _ => h, h,
   shapeInv_resize s, fun hs => shapeInv_restore_screen h hs⟩

/-- C4 witness: the amended claim at a concrete 2×2 screen (shown here on the
clear and scroll_up components). -/
theorem C4_amended_witness :
    (Screen.new 2 2).shapeInv ∧ (Screen.new 2 2).clear.shapeInv ∧
    ((Screen.new 2 2).scroll_up 1).shapeInv := by
  have hinv : (Screen.new 2 2).shapeInv := ⟨by decide, by decide⟩
  have h := C4_amended (Screen.new 2 2) hinv
  exact ⟨hinv, h.1, h.2.2.2.1 1⟩

/-- The continuation-skipping loop only moves left. -/
theorem skip_to_previous_char_le (screen : Screen) (y x : Nat) :
    skip_to_previous_char screen y x ≤ x := by
  induction x with
  | zero => exact Nat.le_refl 0
  | succ x ih =>
    unfold skip_to_previous_char
    split
    · exact Nat.le_trans ih (Nat.le_succ x)
    · exact Nat.le_refl _

/-- The word-start loop only moves left. -/
theorem wordStartLoop_le (screen : Screen) (y x : Nat) :
    wordStartLoop screen y x ≤ x := by
  induction x with
  | zero => exact Nat.le_refl 0
  | succ x ih =>
    unfold wordStartLoop
    split
    · exact Nat.le_trans ih (Nat.le_succ x)
    · exact Nat.le_refl _

/-- The first prev_word loop only moves left. -/
theorem prevWordLoopA_le (screen : Screen) (y x : Nat) :
    prevWordLoopA screen y x ≤ x := by
  induction x with
  | zero => exact Nat.le_refl 0
  | succ x ih =>
    unfold prevWordLoopA
    split
    · exact Nat.le_trans ih (Nat.le_succ x)
    · exact Nat.le_refl _

/-- The second prev_word loop only moves left. -/
theorem prevWordLoopB_le (screen : Screen) (y x : Nat) :
    prevWordLoopB screen y x ≤ x := by
  induction x with
  | zero => exact Nat.le_refl 0
  | succ x ih =>
    unfold prevWordLoopB
    split
    · exact Nat.le_trans ih (Nat.le_succ x)
    · exact Nat.le_refl _

/-- The first next_word loop stays left of cols. -/
theorem nextWordLoopA_lt (screen : Screen) (y cols fuel x : Nat) (h : x < cols) :
    nextWordLoopA screen y cols fuel x < cols := by
  induction fuel generalizing x with
  | zero => exact h
  | succ fuel ih =>
    unfold nextWordLoopA
    by_cases hc : x < cols - 1 ∧ stateGetChar screen x y ≠ ' '
    · rw [if_pos hc]
      exact ih (x + 1) (by have := hc.1; omega)
    · rw [if_neg hc]
      exact h

/-- The second next_word loop stays left of cols. -/
theorem nextWordLoopB_lt (screen : Screen) (y cols fuel x : Nat) (h : x < cols) :
    nextWordLoopB screen y cols fuel x < cols := by
  induction fuel generalizing x with
  | zero => exact h
  | succ fuel ih =>
    unfold nextWordLoopB
    by_cases hc : x < cols - 1 ∧ stateGetChar screen x y = ' '
    · rw [if_pos hc]
      exact ih (x + 1) (by have := hc.1; omega)
    · rw [if_neg hc]
      exact h

/-- `say_word` restores the review position it was entered with. -/
theorem say_word_pos_eq (screen : Screen) (pos : Nat × Nat) :
    say_word_pos screen pos = pos := by
  unfold say_word_pos get_word_at_cursor
  dsimp only
  split
  · rfl
  · rfl

/-- C9: every review-navigation command keeps the review cursor strictly
inside the grid: starting from pos.x < cols and pos.y < rows (cols, rows ≥ 1),
each of the thirteen commands lands again at pos.x < cols and pos.y < rows —
including next_char advancing by a display width of 2 from column cols − 2,
which is clamped back to cols − 1. -/
theorem C9_navigation_in_bounds (screen : Screen) (pos : Nat × Nat)
    (hcols : 1 ≤ screen.size.1) (hrows : 1 ≤ screen.size.2)
    (hx : pos.1 < screen.size.1) (hy : pos.2 < screen.size.2) :
    ((prev_line screen pos).1 < screen.size.1 ∧ (prev_line screen pos).2 < screen.size.2) ∧
    ((current_line screen pos).1 < screen.size.1 ∧
      (current_line screen pos).2 < screen.size.2) ∧
    ((next_line screen pos).1 < screen.size.1 ∧ (next_line screen pos).2 < screen.size.2) ∧
    ((prev_word screen pos).1 < screen.size.1 ∧ (prev_word screen pos).2 < screen.size.2) ∧
    ((say_word_pos screen pos).1 < screen.size.1 ∧
      (say_word_pos screen pos).2 < screen.size.2) ∧
    ((next_word screen pos).1 < screen.size.1 ∧ (next_word screen pos).2 < screen.size.2) ∧
    ((prev_char screen pos).1 < screen.size.1 ∧ (prev_char screen pos).2 < screen.size.2) ∧
    ((current_char screen pos).1 < screen.size.1 ∧
      (current_char screen pos).2 < screen.size.2) ∧
    ((next_char screen pos).1 < screen.size.1 ∧ (next_char screen pos).2 < screen.size.2) ∧
    ((top_of_screen screen pos).1 < screen.size.1 ∧
      (top_of_screen screen pos).2 < screen.size.2) ∧
    ((bottom_of_screen screen pos).1 < screen.size.1 ∧
      (bottom_of_screen screen pos).2 < screen.size.2) ∧
    ((start_of_line screen pos).1 < screen.size.1 ∧
      (start_of_line screen pos).2 < screen.size.2) ∧
    ((end_of_line screen pos).1 < screen.size.1 ∧
      (end_of_line screen pos).2 < screen.size.2) := by
  refine ⟨?_, ⟨hx, hy⟩, ?_, ?_, ?_, ?_, ?_, ⟨hx, hy⟩, ?_, ⟨hx, ?_⟩, ⟨hx, ?_⟩, ⟨?_, hy⟩,
    ⟨?_, hy⟩⟩
  · unfold prev_line
    by_cases h : pos.2 = 0
    · rw [if_pos h]
      exact ⟨hx, hy⟩
    · rw [if_neg h]
      exact ⟨hx, by show pos.2 - 1 < _ ; omega⟩
  · unfold next_line
    by_cases h : pos.2 ≥ screen.size.2 - 1
    · rw [if_pos h]
      exact ⟨hx, hy⟩
    · rw [if_neg h]
      exact ⟨hx, by show pos.2 + 1 < _ ; omega⟩
  · unfold prev_word
    by_cases h : pos.1 = 0
    · rw [if_pos h, say_word_pos_eq]
      exact ⟨hx, hy⟩
    · rw [if_neg h]
      dsimp only
      rw [say_word_pos_eq]
      have l1 : prevWordLoopA screen pos.2 pos.1 ≤ pos.1 :=
        prevWordLoopA_le screen pos.2 pos.1
      have l2 : prevWordLoopB screen pos.2 (prevWordLoopA screen pos.2 pos.1) ≤
          prevWordLoopA screen pos.2 pos.1 :=
        prevWordLoopB_le screen pos.2 _
      have l3 : wordStartLoop screen pos.2
            (prevWordLoopB screen pos.2 (prevWordLoopA screen pos.2 pos.1)) ≤
          prevWordLoopB screen pos.2 (prevWordLoopA screen pos.2 pos.1) :=
        wordStartLoop_le screen pos.2 _
      refine ⟨?_, hy⟩
      show wordStartLoop screen pos.2
          (prevWordLoopB screen pos.2 (prevWordLoopA screen pos.2 pos.1)) < screen.size.1
      omega
  · rw [say_word_pos_eq]
    exact ⟨hx, hy⟩
  · unfold next_word
    dsimp only
    split
    · rw [say_word_pos_eq]
      exact ⟨hx, hy⟩
    · rw [say_word_pos_eq]
      refine ⟨?_, hy⟩
      show nextWordLoopB screen pos.2 screen.size.1 screen.size.1
          (nextWordLoopA screen pos.2 screen.size.1 screen.size.1 pos.1) < screen.size.1
      exact nextWordLoopB_lt screen pos.2 _ _ _
        (nextWordLoopA_lt screen pos.2 _ _ _ hx)
  · unfold prev_char
    by_cases h : pos.1 = 0
    · rw [if_pos h]
      exact ⟨hx, hy⟩
    · rw [if_neg h]
      have := skip_to_previous_char_le screen pos.2 (pos.1 - 1)
      refine ⟨?_, hy⟩
      show skip_to_previous_char screen pos.2 (pos.1 - 1) < screen.size.1
      omega
  · unfold next_char
    dsimp only
    by_cases h : pos.1 + charWidth (stateGetChar screen pos.1 pos.2) > screen.size.1 - 1
    · rw [if_pos h]
      have := skip_to_previous_char_le screen pos.2 (screen.size.1 - 1)
      refine ⟨?_, hy⟩
      show skip_to_previous_char screen pos.2 (screen.size.1 - 1) < screen.size.1
      omega
    · rw [if_neg h]
      refine ⟨?_, hy⟩
      show pos.1 + charWidth (stateGetChar screen pos.1 pos.2) < screen.size.1
      omega
  · show (0 : Nat) < screen.size.2
    omega
  · show screen.size.2 - 1 < screen.size.2
    omega
  · show (0 : Nat) < screen.size.1
    omega
  · show screen.size.1 - 1 < screen.size.1
    omega

/-- C9 witness: the theorem at a concrete 3×3 screen with the review cursor
at (1, 1). -/
theorem C9_navigation_in_bounds_witness :
    1 ≤ (Screen.new 3 3).size.1 ∧ (1, 1).1 < (Screen.new 3 3).size.1 ∧
    ((prev_line (Screen.new 3 3) (1, 1)).1 < (Screen.new 3 3).size.1 ∧
     (prev_line (Screen.new 3 3) (1, 1)).2 < (Screen.new 3 3).size.2) ∧
    ((next_char (Screen.new 3 3) (1, 1)).1 < (Screen.new 3 3).size.1 ∧
     (next_char (Screen.new 3 3) (1, 1)).2 < (Screen.new 3 3).size.2) := by
  refine ⟨by decide, by decide, ?_, ?_⟩
  · exact (C9_navigation_in_bounds (Screen.new 3 3) (1, 1) (by decide) (by decide)
      (by decide) (by decide)).1
  · exact (C9_navigation_in_bounds (Screen.new 3 3) (1, 1) (by decide) (by decide)
      (by decide) (by decide)).2.2.2.2.2.2.2.2.1
